import Mathlib

/-!
Shallow embedding of the simulation core of `src/mario/src/App.js`
(a single-file React side-scroller).  Positions, velocities and time
deltas are modelled as rationals (the source uses JS numbers and the
level geometry keeps every quantity exercised here exact); scores and
lives are integers.  Each definition mirrors one source function:
`getTileAt` / `isSolidAtColRow` (lines 139-146), `rectsIntersect`
(135-137), `moveEntityX` (148-168), `moveEntityY` (170-192),
`restartLevel` (194-209), the level parser (79-116) and the per-frame
`update` (211-298) with its coin, enemy and void-fall phases.
-/

namespace Mario

/-- Tile size in pixels (`const TILE = 48`). -/
def TILE : ℚ := 48

/-- Gravity in px/s^2 (`const GRAV = 2400`). -/
def GRAV : ℚ := 2400

/-- Horizontal run speed in px/s (`const MOVE_SPEED = 280`). -/
def MOVE_SPEED : ℚ := 280

/-- Jump impulse in px/s (`const JUMP_SPEED = 720`). -/
def JUMP_SPEED : ℚ := 720

/-- A level description: the `level` array of strings, one inner list per
row of characters. -/
abbrev LevelMap := List (List Char)

/-- `rows = level.length`. -/
def rowsOf (level : LevelMap) : Nat := level.length

/-- `cols = Math.max(...level.map(r => r.length))` (0 for an empty list). -/
def colsOf (level : LevelMap) : Nat := (level.map List.length).foldr max 0

/-- World height in px: `worldH = rows * TILE`. -/
def worldHOf (level : LevelMap) : ℚ := (rowsOf level : ℚ) * TILE

/-- World width in px: `worldW = cols * TILE`. -/
def worldWOf (level : LevelMap) : ℚ := (colsOf level : ℚ) * TILE

/-- `getTileAt(col, row)`: `null` (here `none`) when either index is
out of bounds, otherwise `level[row][col] || " "` — reading past the end
of a short row yields the space character, exactly as JS `undefined`
is replaced by `" "`. -/
def getTileAt (level : LevelMap) (col row : Int) : Option Char :=
  if row < 0 ∨ row ≥ (rowsOf level : Int) ∨ col < 0 ∨ col ≥ (colsOf level : Int) then
    none
  else
    some ((level.getD row.toNat []).getD col.toNat ' ')

/-- `isSolidAtColRow(col, row) = getTileAt(col, row) === "#"`. -/
def isSolidAtColRow (level : LevelMap) (col row : Int) : Bool :=
  getTileAt level col row == some '#'

/-- An axis-aligned box `{x, y, w, h}` as used by `rectsIntersect`. -/
structure Box where
  x : ℚ
  y : ℚ
  w : ℚ
  h : ℚ
deriving DecidableEq, Repr

/-- `rectsIntersect(a, b)` from the source:
`!(a.x + a.w <= b.x || a.x >= b.x + b.w || a.y + a.h <= b.y || a.y >= b.y + b.h)`. -/
def rectsIntersect (a b : Box) : Bool :=
  !(decide (a.x + a.w ≤ b.x) || decide (a.x ≥ b.x + b.w) ||
    decide (a.y + a.h ≤ b.y) || decide (a.y ≥ b.y + b.h))

/-- The mutable player/enemy record fields touched by the resolvers:
position, size, velocity, ground flag, facing, alive flag. -/
structure Entity where
  x : ℚ
  y : ℚ
  w : ℚ
  h : ℚ
  vx : ℚ
  vy : ℚ
  onGround : Bool
  facing : Int
  alive : Bool
deriving DecidableEq, Repr

/-- A coin record `{x, y, r, c, picked}`. -/
structure Coin where
  x : ℚ
  y : ℚ
  r : Nat
  c : Nat
  picked : Bool
deriving DecidableEq, Repr

/-- An enemy record `{x, y, w, h, speed, dir, alive}`. -/
structure Enemy where
  x : ℚ
  y : ℚ
  w : ℚ
  h : ℚ
  speed : ℚ
  dir : ℚ
  alive : Bool
deriving DecidableEq, Repr

/-- The input snapshot `keys = {left, right, up}`. -/
structure Keys where
  left : Bool
  right : Bool
  up : Bool
deriving DecidableEq, Repr

/-- The whole mutable session: level description plus player, coins,
enemies, and the score/lives counters held in refs by the source. -/
structure GameState where
  level : LevelMap
  player : Entity
  coins : List Coin
  enemies : List Enemy
  score : Int
  lives : Int
deriving DecidableEq, Repr

/-- `n` consecutive integers starting at `lo`. -/
def intRangeAux (lo : Int) : Nat → List Int
  | 0 => []
  | n + 1 => lo :: intRangeAux (lo + 1) n

/-- The list of integers `lo, lo+1, ..., hi` (empty when `hi < lo`),
used to drive the resolver's inclusive `for` loops. -/
def intRange (lo hi : Int) : List Int := intRangeAux lo (hi + 1 - lo).toNat

/-- Row-major list of `(row, col)` cells scanned by the resolvers:
`for (let r = top; r <= bottom; r++) for (let c = left; c <= right; c++)`. -/
def scanCells (left right top bottom : Int) : List (Int × Int) :=
  (intRange top bottom).flatMap (fun r => (intRange left right).map (fun c => (r, c)))

/-- First solid cell met by the row-major scan, `none` when the loop
falls through. -/
def firstSolid (level : LevelMap) (left right top bottom : Int) :
    Option (Int × Int) :=
  (scanCells left right top bottom).find? (fun p => isSolidAtColRow level p.2 p.1)

/-- The inclusive tile range overlapped by an entity's bounding box:
`left/right/top/bottom` computed with `Math.floor`, the trailing edges
as `edge - 1`. -/
def tileRange (ent : Entity) : Int × Int × Int × Int :=
  (⌊ent.x / TILE⌋, ⌊(ent.x + ent.w - 1) / TILE⌋,
   ⌊ent.y / TILE⌋, ⌊(ent.y + ent.h - 1) / TILE⌋)

/-- First solid cell of the range currently overlapped by `ent`. -/
def firstSolidAt (level : LevelMap) (ent : Entity) : Option (Int × Int) :=
  firstSolid level (tileRange ent).1 (tileRange ent).2.1
    (tileRange ent).2.2.1 (tileRange ent).2.2.2

/-- `moveEntityX(ent, dx)`: apply the delta, then clamp against the first
solid cell of the row-major scan (right edge to the cell's left edge when
`dx > 0`, left edge to the cell's right edge when `dx < 0`) and zero a
nonzero `vx`. -/
def moveEntityX (level : LevelMap) (ent : Entity) (dx : ℚ) : Entity :=
  let ent := { ent with x := ent.x + dx }
  match firstSolidAt level ent with
  | some (_, c) =>
      let ent :=
        if dx > 0 then { ent with x := (c : ℚ) * TILE - ent.w }
        else if dx < 0 then { ent with x := (c : ℚ) * TILE + TILE }
        else ent
      if ent.vx ≠ 0 then { ent with vx := 0 } else ent
  | none => ent

/-- `moveEntityY(ent, dy)`: apply the delta; on the first solid cell clamp
(bottom to the cell's top with `onGround := true` when `dy > 0`, top to
the cell's bottom when `dy < 0`) and zero `vy`; when the scan finds no
solid cell, set `onGround := false`. -/
def moveEntityY (level : LevelMap) (ent : Entity) (dy : ℚ) : Entity :=
  let ent := { ent with y := ent.y + dy }
  match firstSolidAt level ent with
  | some (r, _) =>
      if dy > 0 then
        { ent with y := (r : ℚ) * TILE - ent.h, vy := 0, onGround := true }
      else if dy < 0 then
        { ent with y := (r : ℚ) * TILE + TILE, vy := 0 }
      else ent
  | none => { ent with onGround := false }

/-- The player's collision box `{x: player.x, y: player.y, w, h}`. -/
def playerBox (p : Entity) : Box := ⟨p.x, p.y, p.w, p.h⟩

/-- An enemy's collision box `{x: en.x, y: en.y, w: en.w, h: en.h}`. -/
def enemyBox (en : Enemy) : Box := ⟨en.x, en.y, en.w, en.h⟩

/-- A coin's fixed 20x20 pickup box centred on the coin:
`{x: coin.x - 10, y: coin.y - 10, w: 20, h: 20}`. -/
def coinBox (c : Coin) : Box := ⟨c.x - 10, c.y - 10, 20, 20⟩

/-- The player record before level parsing: `x = TILE*2, y = 0`,
36x42 box, zero velocity, airborne, facing right, alive. -/
def defaultPlayer : Entity :=
  { x := TILE * 2, y := 0, w := 36, h := 42, vx := 0, vy := 0,
    onGround := false, facing := 1, alive := true }

/-- The character the parser reads at cell `(r, c)`:
`level[r][c] || " "` (short rows padded with spaces). -/
def cellChar (level : LevelMap) (r c : Nat) : Char :=
  (level.getD r []).getD c ' '

/-- One iteration of the parse loop: `C` appends a coin at the cell
centre, `E` appends a 36x36 enemy resting on the cell's bottom edge,
`P` overwrites the player's position (so the last `P` wins); `#` and
`G` add nothing that the simulation reads. -/
def parseCell (st : GameState) (rc : Nat × Nat) : GameState :=
  let r := rc.1
  let c := rc.2
  let ch := cellChar st.level r c
  let x : ℚ := (c : ℚ) * TILE
  let y : ℚ := (r : ℚ) * TILE
  if ch = 'C' then
    { st with coins := st.coins ++ [⟨x + TILE / 2, y + TILE / 2, r, c, false⟩] }
  else if ch = 'E' then
    { st with enemies := st.enemies ++
        [⟨x, y + TILE - 40, 36, 36, 60, 1, true⟩] }
  else if ch = 'P' then
    { st with player := { st.player with x := x + 6, y := y - st.player.h } }
  else st

/-- Row-major list of all `(r, c)` cell indices of the parse loop. -/
def allCells (rows cols : Nat) : List (Nat × Nat) :=
  (List.range rows).flatMap (fun r => (List.range cols).map (fun c => (r, c)))

/-- Construction of the session from a level description: score 0,
lives 3, and the double `for` loop over all cells populating coins,
enemies and the player start. -/
def parseLevel (level : LevelMap) : GameState :=
  (allCells (rowsOf level) (colsOf level)).foldl parseCell
    { level := level, player := defaultPlayer, coins := [], enemies := [],
      score := 0, lives := 3 }

/-- `restartLevel()`: score to 0, lives clamped to `max(0, lives)`, player
moved to `(TILE*2, 0)` with zero velocity, every coin unpicked, every
enemy revived.  `onGround`, `facing` and `alive` are not touched. -/
def restartLevel (g : GameState) : GameState :=
  { g with
    score := 0,
    lives := max 0 g.lives,
    player := { g.player with x := TILE * 2, y := 0, vx := 0, vy := 0 },
    coins := g.coins.map (fun c => { c with picked := false }),
    enemies := g.enemies.map (fun e => { e with alive := true }) }

/-- One iteration of the coin loop: an unpicked coin whose pickup box
intersects the player's box is marked picked and scores 1; every other
coin passes through unchanged. -/
def processCoin (p : Entity) (acc : List Coin × Int) (coin : Coin) :
    List Coin × Int :=
  if coin.picked = false then
    if rectsIntersect (coinBox coin) (playerBox p) then
      (acc.1 ++ [{ coin with picked := true }], acc.2 + 1)
    else
      (acc.1 ++ [coin], acc.2)
  else
    (acc.1 ++ [coin], acc.2)

/-- The coin-collection phase: fold the coin loop over the list, returning
the updated coins and score. -/
def processCoins (p : Entity) (coins : List Coin) (score : Int) :
    List Coin × Int :=
  coins.foldl (processCoin p) ([], score)

/-- The enemy patrol AI: advance `x` by `dir * speed * dt`, then flip
`dir` when the cell one step ahead of the leading edge and one pixel
below the feet is not solid. -/
def enemyAI (level : LevelMap) (dt : ℚ) (en : Enemy) : Enemy :=
  let en := { en with x := en.x + en.dir * en.speed * dt }
  let aheadCol : Int := ⌊(en.x + (if en.dir > 0 then en.w else 0)) / TILE⌋
  let footRow : Int := ⌊(en.y + en.h + 1) / TILE⌋
  if isSolidAtColRow level aheadCol footRow = false then
    { en with dir := -en.dir }
  else en

/-- The damage outcome shared by the enemy branch and the void-fall
branch: decrement lives; at `lives <= 0` kill the player, otherwise
teleport the player to `(TILE*2, 0)` and zero both velocity components. -/
def hurtPlayer (p : Entity) (lives : Int) : Entity × Int :=
  let lives := lives - 1
  if lives ≤ 0 then
    ({ p with alive := false }, lives)
  else
    ({ p with x := TILE * 2, y := 0, vx := 0, vy := 0 }, lives)

/-- The accumulator of the enemy loop: enemies processed so far, plus the
player, score and lives it mutates. -/
structure EnemyPhase where
  enemies : List Enemy
  player : Entity
  score : Int
  lives : Int
deriving DecidableEq, Repr

/-- One iteration of the enemy loop: skip dead enemies; otherwise run the
AI, then on a box overlap with the player either stomp (falling player
whose bottom edge is less than 16px below the enemy's centre: enemy dies,
player bounces with `vy = -JUMP_SPEED * 0.5`, score +2) or hurt the
player.  The loop does not re-check `player.alive`, so a dead player can
still be hurt by later enemies of the same frame. -/
def processEnemy (level : LevelMap) (dt : ℚ) (s : EnemyPhase) (en : Enemy) :
    EnemyPhase :=
  if en.alive = false then
    { s with enemies := s.enemies ++ [en] }
  else
    let en := enemyAI level dt en
    if rectsIntersect (enemyBox en) (playerBox s.player) then
      if s.player.vy > 0 ∧ (s.player.y + s.player.h) - (en.y + en.h / 2) < 16 then
        { enemies := s.enemies ++ [{ en with alive := false }],
          player := { s.player with vy := -JUMP_SPEED * 0.5 },
          score := s.score + 2,
          lives := s.lives }
      else
        let hurt := hurtPlayer s.player s.lives
        { enemies := s.enemies ++ [en],
          player := hurt.1,
          score := s.score,
          lives := hurt.2 }
    else
      { s with enemies := s.enemies ++ [en] }

/-- The void-fall check closing the frame: when `player.y > worldH + 500`,
apply the damage outcome (the source inlines the same decrement /
kill-or-respawn sequence as the enemy branch). -/
def voidFall (g : GameState) : GameState :=
  if g.player.y > worldHOf g.level + 500 then
    let hurt := hurtPlayer g.player g.lives
    { g with player := hurt.1, lives := hurt.2 }
  else g

/-- `update(dt)`: no-op while the player is dead; otherwise horizontal
intent, jump, gravity, axis-separated integration, the coin loop, the
enemy loop and the void-fall check, in source order. -/
def update (keys : Keys) (dt : ℚ) (g : GameState) : GameState :=
  if g.player.alive = false then g
  else
    let move : ℚ := (if keys.left then -1 else 0) + (if keys.right then 1 else 0)
    let p := { g.player with vx := move * MOVE_SPEED }
    let p := if move ≠ 0 then { p with facing := if move > 0 then 1 else -1 } else p
    let p := if keys.up && p.onGround then
               { p with vy := -JUMP_SPEED, onGround := false }
             else p
    let p := { p with vy := p.vy + GRAV * dt }
    let p := moveEntityX g.level p (p.vx * dt)
    let p := moveEntityY g.level p (p.vy * dt)
    let cs := processCoins p g.coins g.score
    let ep := g.enemies.foldl (processEnemy g.level dt)
                ⟨[], p, cs.2, g.lives⟩
    voidFall { g with player := ep.player, coins := cs.1,
                      enemies := ep.enemies, score := ep.score,
                      lives := ep.lives }

/-- Whether some cell of the tile range currently overlapped by the
entity's bounding box is solid — the resolver's own notion of standing
inside terrain. -/
def overlapsSolid (level : LevelMap) (ent : Entity) : Bool :=
  (firstSolidAt level ent).isSome

/-- A two-row level with solid cells at `(row 0, col 2)` and
`(row 1, col 1)`. -/
def lvlStaircase : LevelMap := [[' ', ' ', '#'], [' ', '#', ' ']]

/-- A 40x96 entity (spanning two tile rows) just left of the staircase. -/
def entTall : Entity :=
  { x := 30, y := 0, w := 40, h := 96, vx := 5, vy := 0,
    onGround := false, facing := 1, alive := true }

/-- A single solid cell at the origin. -/
def lvlBlock : LevelMap := [['#']]

/-- A level whose second row is a single solid cell. -/
def lvlFloor : LevelMap := [[' '], ['#']]

/-- A player-sized entity to the right of the origin block. -/
def entRunner : Entity :=
  { x := 60, y := 0, w := 36, h := 42, vx := -3, vy := 0,
    onGround := false, facing := -1, alive := true }

/-- A player-sized entity hovering above the floor cell of `lvlFloor`. -/
def entFaller : Entity :=
  { x := 0, y := 10, w := 36, h := 42, vx := 0, vy := 7,
    onGround := false, facing := 1, alive := true }

/-- Specification-side description of what one step does to one coin:
an unpicked coin overlapping the player's box gets picked, every other
coin is untouched.  Compared against `processCoins` below. -/
def stepCoin (p : Entity) (coin : Coin) : Coin :=
  if coin.picked = false ∧ rectsIntersect (coinBox coin) (playerBox p) = true then
    { coin with picked := true }
  else coin

/-- Specification-side count of the coins a step newly picks: the
unpicked coins whose pickup box overlaps the player. -/
def newlyPicked (p : Entity) (coins : List Coin) : Nat :=
  (coins.filter
    (fun coin => !coin.picked && rectsIntersect (coinBox coin) (playerBox p))).length

/-- The idle input snapshot. -/
def noKeys : Keys := ⟨false, false, false⟩

/-- A coin at the centre of the origin tile. -/
def coinA : Coin := { x := 24, y := 24, r := 0, c := 0, picked := false }

/-- A finished session: dead player, zero lives, a score, a picked coin
and a dead enemy. -/
def deadState : GameState :=
  { level := lvlBlock,
    player := { defaultPlayer with x := 5, alive := false },
    coins := [{ coinA with picked := true }],
    enemies := [{ x := 0, y := 8, w := 36, h := 36, speed := 60, dir := 1, alive := false }],
    score := 7, lives := 0 }

/-- An enemy sitting exactly on the origin. -/
def enemyAt : Enemy :=
  { x := 0, y := 0, w := 36, h := 36, speed := 60, dir := 1, alive := true }

/-- One remaining life and two living enemies overlapping the player. -/
def twoEnemyState : GameState :=
  { level := [[]],
    player := { defaultPlayer with x := 0, y := 0 },
    coins := [], enemies := [enemyAt, enemyAt], score := 0, lives := 1 }

/-- An enemy-phase accumulator whose player is falling (`vy = 1`) with
its bottom edge 17px above the centre of `enemyB`. -/
def phaseA : EnemyPhase :=
  { enemies := [],
    player := { defaultPlayer with x := 0, y := 59, vy := 1 },
    score := 0, lives := 3 }

/-- An enemy whose vertical centre is at `y = 118`. -/
def enemyB : Enemy :=
  { x := 0, y := 100, w := 36, h := 36, speed := 60, dir := 1, alive := true }

/-- An enemy-phase accumulator whose player overlaps `enemyAt` without
falling. -/
def phaseB : EnemyPhase :=
  { enemies := [],
    player := { defaultPlayer with x := 0, y := 0 },
    score := 0, lives := 3 }

/-- A one-cell level holding only the `P` marker. -/
def lvlP : LevelMap := [['P']]

/-- A session on `lvlP` whose player has fallen past the void line. -/
def voidState : GameState :=
  { level := lvlP,
    player := { defaultPlayer with x := 6, y := 600 },
    coins := [coinA], enemies := [], score := 4, lives := 3 }

end Mario

namespace Mario

/-- Claim C8: the tilemap solidity query returns `false` whenever either
index is negative or at least the grid extent on its axis; in bounds it
returns `true` exactly when the level cell is the `#` character, with
short ragged rows treated as space-padded. -/
theorem isSolid_bounds (level : LevelMap) (col row : Int) :
    ((col < 0 ∨ row < 0 ∨ (colsOf level : Int) ≤ col ∨ (rowsOf level : Int) ≤ row) →
      isSolidAtColRow level col row = false) ∧
    (0 ≤ col → 0 ≤ row → col < (colsOf level : Int) → row < (rowsOf level : Int) →
      (isSolidAtColRow level col row = true ↔
        cellChar level row.toNat col.toNat = '#')) := by
  unfold isSolidAtColRow getTileAt
  constructor
  · intro h
    rw [if_pos (by tauto)]
    rfl
  · intro h1 h2 h3 h4
    rw [if_neg (by push_neg; exact ⟨h2, h4, h1, h3⟩)]
    simp [cellChar]

/-- Witness for C8 at a concrete level: the query is `false` one column
left of the map and matches the cell character in bounds. -/
theorem isSolid_bounds_witness :
    isSolidAtColRow lvlBlock (-1) 0 = false ∧
    (isSolidAtColRow lvlBlock 0 0 = true ↔ cellChar lvlBlock 0 0 = '#') := by
  constructor
  · exact (isSolid_bounds lvlBlock (-1) 0).1 (by decide)
  · exact (isSolid_bounds lvlBlock 0 0).2 (by decide) (by decide) (by decide) (by decide)

/-- Claim C10: the horizontal resolver touches only `x` and `vx`; the
vertical coordinate, vertical velocity, ground flag, size, facing and
alive flag all pass through unchanged. -/
theorem moveEntityX_frame (level : LevelMap) (ent : Entity) (dx : ℚ) :
    (moveEntityX level ent dx).y = ent.y ∧
    (moveEntityX level ent dx).vy = ent.vy ∧
    (moveEntityX level ent dx).onGround = ent.onGround ∧
    (moveEntityX level ent dx).w = ent.w ∧
    (moveEntityX level ent dx).h = ent.h ∧
    (moveEntityX level ent dx).facing = ent.facing ∧
    (moveEntityX level ent dx).alive = ent.alive := by
  unfold moveEntityX
  rcases h : firstSolidAt level { ent with x := ent.x + dx } with _ | ⟨r, c⟩
  · simp [h]
  · simp only [h]
    split_ifs <;> simp

/-- Claim C6: the vertical resolver called with `dy = 0` never moves the
entity, and when the entity's bounding box overlaps no solid tile it
resets `onGround` to `false` in that same call. -/
theorem moveEntityY_zero_delta (level : LevelMap) (ent : Entity) :
    (moveEntityY level ent 0).x = ent.x ∧
    (moveEntityY level ent 0).y = ent.y ∧
    (overlapsSolid level ent = false → (moveEntityY level ent 0).onGround = false) := by
  have hent : ({ ent with y := ent.y + 0 } : Entity) = ent := by
    simp
  unfold moveEntityY
  rw [hent]
  rcases h : firstSolidAt level ent with _ | ⟨r, c⟩
  · simp [overlapsSolid, h]
  · simp [overlapsSolid, h]

/-- Witness for C6 at a concrete input: a falling-free entity over the
empty corner of `lvlFloor` keeps its position and loses `onGround`. -/
theorem moveEntityY_zero_delta_witness :
    (moveEntityY lvlBlock { entRunner with onGround := true } 0).x = entRunner.x ∧
    (moveEntityY lvlBlock { entRunner with onGround := true } 0).onGround = false := by
  constructor
  · exact (moveEntityY_zero_delta lvlBlock { entRunner with onGround := true }).1
  · refine (moveEntityY_zero_delta lvlBlock { entRunner with onGround := true }).2.2 ?_
    norm_num [overlapsSolid, firstSolidAt, tileRange, firstSolid, scanCells, intRange,
      intRangeAux, isSolidAtColRow, getTileAt, rowsOf, colsOf, lvlBlock, entRunner, TILE,
      List.find?, List.flatMap]

end Mario

namespace Mario

/-- Claim C5 (amended): when the resolver's scan finds a solid cell and
the delta is nonzero, the entity is left exactly flush with that cell's
edge in the movement direction and the axis velocity is zeroed (with
`onGround` set on a downward resolution) — but the box may still overlap
a different solid cell, because the scan stops at the first one. -/
theorem resolver_flush (level : LevelMap) (ent : Entity) (d : ℚ) (r c : Int) :
    (firstSolidAt level { ent with x := ent.x + d } = some (r, c) →
      (0 < d → (moveEntityX level ent d).x + (moveEntityX level ent d).w = (c : ℚ) * TILE ∧
               (moveEntityX level ent d).vx = 0) ∧
      (d < 0 → (moveEntityX level ent d).x = (c : ℚ) * TILE + TILE ∧
               (moveEntityX level ent d).vx = 0)) ∧
    (firstSolidAt level { ent with y := ent.y + d } = some (r, c) →
      (0 < d → (moveEntityY level ent d).y + (moveEntityY level ent d).h = (r : ℚ) * TILE ∧
               (moveEntityY level ent d).vy = 0 ∧ (moveEntityY level ent d).onGround = true) ∧
      (d < 0 → (moveEntityY level ent d).y = (r : ℚ) * TILE + TILE ∧
               (moveEntityY level ent d).vy = 0)) := by
  constructor
  · intro h
    constructor
    · intro hd
      unfold moveEntityX
      simp only [h, if_pos hd]
      split_ifs <;> simp_all
    · intro hd
      unfold moveEntityX
      simp only [h, if_neg (by linarith : ¬ (0 : ℚ) < d), if_pos hd]
      split_ifs <;> simp_all
  · intro h
    constructor
    · intro hd
      unfold moveEntityY
      simp only [h, if_pos hd]
      refine ⟨by simp, by simp, by simp⟩
    · intro hd
      unfold moveEntityY
      simp only [h, if_neg (by linarith : ¬ (0 : ℚ) < d), if_pos hd]
      exact ⟨by simp, by simp⟩

end Mario

namespace Mario

/-- Witness for C5 (amended) in all four approach directions, at concrete
entities and levels. -/
theorem resolver_flush_witness :
    ((moveEntityX lvlStaircase entTall 40).x + (moveEntityX lvlStaircase entTall 40).w
        = ((2 : Int) : ℚ) * TILE ∧
      (moveEntityX lvlStaircase entTall 40).vx = 0) ∧
    ((moveEntityX lvlBlock entRunner (-30)).x = ((0 : Int) : ℚ) * TILE + TILE ∧
      (moveEntityX lvlBlock entRunner (-30)).vx = 0) ∧
    ((moveEntityY lvlFloor entFaller 50).y + (moveEntityY lvlFloor entFaller 50).h
        = ((1 : Int) : ℚ) * TILE ∧
      (moveEntityY lvlFloor entFaller 50).vy = 0 ∧
      (moveEntityY lvlFloor entFaller 50).onGround = true) ∧
    ((moveEntityY lvlBlock entFaller (-5)).y = ((0 : Int) : ℚ) * TILE + TILE ∧
      (moveEntityY lvlBlock entFaller (-5)).vy = 0) := by
  have h1 : firstSolidAt lvlStaircase { entTall with x := entTall.x + 40 } = some (0, 2) := by
    norm_num [firstSolidAt, tileRange, firstSolid, scanCells, intRange, intRangeAux,
      isSolidAtColRow, getTileAt, rowsOf, colsOf, lvlStaircase, entTall, TILE,
      List.find?, List.flatMap]
    decide
  have h2 : firstSolidAt lvlBlock { entRunner with x := entRunner.x + (-30) } = some (0, 0) := by
    norm_num [firstSolidAt, tileRange, firstSolid, scanCells, intRange, intRangeAux,
      isSolidAtColRow, getTileAt, rowsOf, colsOf, lvlBlock, entRunner, TILE,
      List.find?, List.flatMap]
  have h3 : firstSolidAt lvlFloor { entFaller with y := entFaller.y + 50 } = some (1, 0) := by
    norm_num [firstSolidAt, tileRange, firstSolid, scanCells, intRange, intRangeAux,
      isSolidAtColRow, getTileAt, rowsOf, colsOf, lvlFloor, entFaller, TILE,
      List.find?, List.flatMap]
  have h4 : firstSolidAt lvlBlock { entFaller with y := entFaller.y + (-5) } = some (0, 0) := by
    norm_num [firstSolidAt, tileRange, firstSolid, scanCells, intRange, intRangeAux,
      isSolidAtColRow, getTileAt, rowsOf, colsOf, lvlBlock, entFaller, TILE,
      List.find?, List.flatMap]
  refine ⟨((resolver_flush lvlStaircase entTall 40 0 2).1 h1).1 (by norm_num),
          ((resolver_flush lvlBlock entRunner (-30) 0 0).1 h2).2 (by norm_num),
          ((resolver_flush lvlFloor entFaller 50 1 0).2 h3).1 (by norm_num),
          ((resolver_flush lvlBlock entFaller (-5) 0 0).2 h4).2 (by norm_num)⟩

/-- Counterexample to C5 as stated: on `lvlStaircase` the tall entity
moving right resolves against the first scanned solid cell `(0, 2)` and
is clamped to `x = 56` — but its box then still overlaps the solid cell
`(1, 1)`, so the resolver does not guarantee an overlap-free result. -/
theorem clamp_leaves_solid_overlap :
    (moveEntityX lvlStaircase entTall 40).x = 56 ∧
    (moveEntityX lvlStaircase entTall 40).vx = 0 ∧
    overlapsSolid lvlStaircase (moveEntityX lvlStaircase entTall 40) = true := by
  have h1 : firstSolidAt lvlStaircase { entTall with x := entTall.x + 40 } = some (0, 2) := by
    norm_num [firstSolidAt, tileRange, firstSolid, scanCells, intRange, intRangeAux,
      isSolidAtColRow, getTileAt, rowsOf, colsOf, lvlStaircase, entTall, TILE,
      List.find?, List.flatMap]
    decide
  have h2 : moveEntityX lvlStaircase entTall 40 = { entTall with x := 56, vx := 0 } := by
    unfold moveEntityX
    simp only [h1]
    norm_num [entTall, TILE]
  rw [h2]
  refine ⟨by norm_num [entTall], by norm_num [entTall], ?_⟩
  norm_num [overlapsSolid, firstSolidAt, tileRange, firstSolid, scanCells, intRange,
    intRangeAux, isSolidAtColRow, getTileAt, rowsOf, colsOf, lvlStaircase, entTall, TILE,
    List.find?, List.flatMap]
  decide

end Mario

namespace Mario

/-- The coin fold with an arbitrary accumulator: it appends the stepped
coins and adds the number of newly picked ones to the score. -/
theorem processCoins_eq (p : Entity) (coins : List Coin) :
    ∀ (acc : List Coin) (score : Int),
      coins.foldl (processCoin p) (acc, score)
        = (acc ++ coins.map (stepCoin p), score + (newlyPicked p coins : Int)) := by
  induction coins with
  | nil => intro acc score; simp [newlyPicked]
  | cons c cs ih =>
      intro acc score
      simp only [List.foldl_cons]
      by_cases h1 : c.picked = false
      · by_cases h2 : rectsIntersect (coinBox c) (playerBox p) = true
        · rw [show processCoin p (acc, score) c
              = (acc ++ [{ c with picked := true }], score + 1) by
            simp [processCoin, h1, h2]]
          rw [ih]
          simp [stepCoin, newlyPicked, h1, h2, List.filter_cons]
          ring
        · rw [show processCoin p (acc, score) c = (acc ++ [c], score) by
            simp [processCoin, h1, h2]]
          rw [ih]
          simp [stepCoin, newlyPicked, h1, h2, List.filter_cons]
      · rw [show processCoin p (acc, score) c = (acc ++ [c], score) by
          simp [processCoin, h1]]
        rw [ih]
        have h1' : c.picked = true := by revert h1; cases c.picked <;> simp
        simp [stepCoin, newlyPicked, h1', List.filter_cons]

/-- Claim C7: the coin phase maps `stepCoin` over the coins and adds one
point per newly picked coin; an unpicked overlapping coin is picked and
counts exactly 1, while a picked coin is unchanged and counts 0 however
often it still overlaps. -/
theorem coin_pickup_exactly_once (p : Entity) :
    (∀ coins score, processCoins p coins score
        = (coins.map (stepCoin p), score + (newlyPicked p coins : Int))) ∧
    (∀ coin, coin.picked = false → rectsIntersect (coinBox coin) (playerBox p) = true →
      stepCoin p coin = { coin with picked := true } ∧ newlyPicked p [coin] = 1) ∧
    (∀ coin, coin.picked = true →
      stepCoin p coin = coin ∧ newlyPicked p [coin] = 0) := by
  refine ⟨fun coins score => ?_, fun coin h1 h2 => ?_, fun coin h1 => ?_⟩
  · unfold processCoins
    rw [processCoins_eq]
    simp
  · exact ⟨by simp [stepCoin, h1, h2], by simp [newlyPicked, List.filter_cons, h1, h2]⟩
  · exact ⟨by simp [stepCoin, h1], by simp [newlyPicked, List.filter_cons, h1]⟩

/-- Witness for C7: the player over the origin tile picks `coinA` for
exactly one point on first contact, and the picked copy of `coinA` is
inert afterwards. -/
theorem coin_pickup_exactly_once_witness :
    (stepCoin entFaller coinA = { coinA with picked := true } ∧
      newlyPicked entFaller [coinA] = 1) ∧
    (stepCoin entFaller { coinA with picked := true } = { coinA with picked := true } ∧
      newlyPicked entFaller [{ coinA with picked := true }] = 0) := by
  constructor
  · exact (coin_pickup_exactly_once entFaller).2.1 coinA (by norm_num [coinA])
      (by norm_num [rectsIntersect, coinBox, playerBox, coinA, entFaller])
  · exact (coin_pickup_exactly_once entFaller).2.2 { coinA with picked := true }
      (by norm_num [coinA])

end Mario

namespace Mario

/-- Claim C3 (amended): `restartLevel` zeroes the score, clamps lives to
`max 0 lives` (it does not restore the starting value 3), unpicks every
coin, revives every enemy, and puts the player at the default start
`(TILE*2, 0)` with zero velocity, leaving the `alive` flag as it was. -/
theorem restart_characterization (g : GameState) :
    (restartLevel g).score = 0 ∧
    (restartLevel g).lives = max 0 g.lives ∧
    (restartLevel g).player.x = TILE * 2 ∧
    (restartLevel g).player.y = 0 ∧
    (restartLevel g).player.vx = 0 ∧
    (restartLevel g).player.vy = 0 ∧
    (restartLevel g).player.alive = g.player.alive ∧
    (restartLevel g).coins = g.coins.map (fun c => { c with picked := false }) ∧
    (restartLevel g).enemies = g.enemies.map (fun e => { e with alive := true }) ∧
    (restartLevel g).level = g.level := by
  unfold restartLevel
  exact ⟨rfl, rfl, rfl, rfl, rfl, rfl, rfl, rfl, rfl, rfl⟩

/-- Counterexample to C3 as stated: restarting the finished session
`deadState` leaves lives at 0 — not at the configured starting value 3 —
and the player stays dead. -/
theorem restart_keeps_zero_lives :
    (restartLevel deadState).lives = 0 ∧
    ¬ (restartLevel deadState).lives = 3 ∧
    (restartLevel deadState).player.alive = false := by
  refine ⟨?_, ?_, ?_⟩ <;>
    norm_num [restartLevel, deadState, defaultPlayer]

end Mario

namespace Mario

/-- Reading any position of a `P`-free character row (with the space
default) never yields `P`. -/
theorem getD_row_ne_P (l : List Char)
    (h : l.all (fun ch => ch != 'P') = true) :
    ∀ c, l.getD c ' ' ≠ 'P' := by
  induction l with
  | nil => intro c; simp [List.getD]
  | cons a t ih =>
      intro c
      simp only [List.all_cons, Bool.and_eq_true, bne_iff_ne] at h
      cases c with
      | zero => simpa using h.1
      | succ c => simpa using ih (by simpa using h.2) c

/-- Every row fetched from a `P`-free level (including the `[]` default)
is itself `P`-free. -/
theorem getD_level_no_P (level : LevelMap)
    (h : level.all (fun row => row.all (fun ch => ch != 'P')) = true) :
    ∀ r, (level.getD r []).all (fun ch => ch != 'P') = true := by
  induction level with
  | nil => intro r; simp [List.getD]
  | cons row t ih =>
      intro r
      simp only [List.all_cons, Bool.and_eq_true] at h
      cases r with
      | zero => simpa using h.1
      | succ r => simpa using ih (by simpa using h.2) r

/-- In a `P`-free level every parsed cell character differs from `P`. -/
theorem cellChar_ne_P (level : LevelMap)
    (h : level.all (fun row => row.all (fun ch => ch != 'P')) = true)
    (r c : Nat) : cellChar level r c ≠ 'P' :=
  getD_row_ne_P (level.getD r []) (getD_level_no_P level h r) c

/-- A parse iteration on a non-`P` cell keeps the player and the level. -/
theorem parseCell_player (st : GameState) (rc : Nat × Nat)
    (h : cellChar st.level rc.1 rc.2 ≠ 'P') :
    (parseCell st rc).player = st.player ∧ (parseCell st rc).level = st.level := by
  simp only [parseCell]
  split_ifs <;> simp_all

/-- Folding the parse loop over any cell list of a `P`-free level leaves
the player untouched. -/
theorem foldl_parseCell_no_P (level : LevelMap)
    (h : level.all (fun row => row.all (fun ch => ch != 'P')) = true) :
    ∀ (cells : List (Nat × Nat)) (st : GameState), st.level = level →
      ((cells.foldl parseCell st).player = st.player ∧
       (cells.foldl parseCell st).level = level) := by
  intro cells
  induction cells with
  | nil => intro st hst; exact ⟨rfl, hst⟩
  | cons rc cs ih =>
      intro st hst
      have hch : cellChar st.level rc.1 rc.2 ≠ 'P' := by
        rw [hst]; exact cellChar_ne_P level h rc.1 rc.2
      have hp := parseCell_player st rc hch
      simp only [List.foldl_cons]
      have hrest := ih (parseCell st rc) (by rw [hp.2, hst])
      exact ⟨by rw [hrest.1, hp.1], hrest.2⟩

/-- Claim C9 (amended): constructing a session from a level description
with no `P` marker does not fail — the parser is total and silently
leaves the player at the defaulted spawn `defaultPlayer` (position
`(TILE*2, 0)`). -/
theorem parse_without_P_defaults (level : LevelMap)
    (h : level.all (fun row => row.all (fun ch => ch != 'P')) = true) :
    (parseLevel level).player = defaultPlayer := by
  unfold parseLevel
  exact (foldl_parseCell_no_P level h
    (allCells (rowsOf level) (colsOf level))
    { level := level, player := defaultPlayer, coins := [], enemies := [],
      score := 0, lives := 3 } rfl).1

/-- Witness for C9 (amended) on the concrete `P`-less level `[['#','#']]`. -/
theorem parse_without_P_defaults_witness :
    (parseLevel [['#', '#']]).player = defaultPlayer :=
  parse_without_P_defaults [['#', '#']] (by decide)

/-- Counterexample to C9 as stated: construction from the `P`-less level
`[['#','#']]` raises nothing and produces a live session whose player
sits at the defaulted spawn `(96, 0)`. -/
theorem parse_without_P_gives_default_spawn :
    (parseLevel [['#', '#']]).player.x = 96 ∧
    (parseLevel [['#', '#']]).player.y = 0 ∧
    (parseLevel [['#', '#']]).player.alive = true := by
  have h : (parseLevel [['#', '#']]).player = defaultPlayer := by
    unfold parseLevel
    exact (foldl_parseCell_no_P [['#', '#']] (by decide) _ _ rfl).1
  rw [h]
  norm_num [defaultPlayer, TILE]

end Mario

namespace Mario

/-- Claim C2 (amended): once the player is dead at the start of a step,
`update` is the identity, so later frames cause no further lives change;
the within-frame half of the claim fails (see the counterexample). -/
theorem update_dead_noop (keys : Keys) (dt : ℚ) (g : GameState)
    (h : g.player.alive = false) : update keys dt g = g := by
  unfold update
  rw [if_pos h]

/-- Witness for C2 (amended): a step on the dead session `deadState`
changes nothing. -/
theorem update_dead_noop_witness : update noKeys 1 deadState = deadState :=
  update_dead_noop noKeys 1 deadState rfl

set_option maxHeartbeats 2000000 in
/-- Counterexample to C2 as stated: with one life left and two living
enemies overlapping the player, a single step decrements lives twice —
the first overlap drops lives to 0 and clears `alive`, and the enemy
loop, which never re-checks `alive`, lets the second enemy hurt the
already-dead player, leaving lives at -1. -/
theorem lives_go_negative :
    twoEnemyState.lives = 1 ∧
    (update noKeys 0 twoEnemyState).lives = -1 ∧
    (update noKeys 0 twoEnemyState).player.alive = false := by
  refine ⟨rfl, ?_⟩
  norm_num +decide [update, noKeys, twoEnemyState, defaultPlayer, enemyAt, MOVE_SPEED,
    GRAV, JUMP_SPEED, TILE, moveEntityX, moveEntityY, firstSolidAt, tileRange, firstSolid,
    scanCells, intRange, intRangeAux, isSolidAtColRow, getTileAt, rowsOf, colsOf,
    processCoins, processCoin, processEnemy, enemyAI, hurtPlayer, voidFall, worldHOf,
    rectsIntersect, playerBox, enemyBox, List.find?, List.flatMap, List.foldl]

end Mario

namespace Mario

/-- Claim C4 (amended): for a living enemy whose (post-AI) box overlaps
the player, exactly one of the two outcomes fires, decided by the sign of
`vy` and the one-sided threshold `playerBottom - enemyCentre < 16`: when
the player is falling and its bottom edge is less than 16px below the
enemy's vertical centre (it may be arbitrarily far above it) the stomp
fires, otherwise the damage outcome fires. -/
theorem stomp_or_damage (level : LevelMap) (dt : ℚ) (s : EnemyPhase) (en : Enemy)
    (halive : en.alive = true)
    (hoverlap : rectsIntersect (enemyBox (enemyAI level dt en)) (playerBox s.player) = true) :
    (s.player.vy > 0 ∧
        (s.player.y + s.player.h) -
          ((enemyAI level dt en).y + (enemyAI level dt en).h / 2) < 16 →
      processEnemy level dt s en =
        { enemies := s.enemies ++ [{ enemyAI level dt en with alive := false }],
          player := { s.player with vy := -JUMP_SPEED * 0.5 },
          score := s.score + 2, lives := s.lives }) ∧
    (¬ (s.player.vy > 0 ∧
        (s.player.y + s.player.h) -
          ((enemyAI level dt en).y + (enemyAI level dt en).h / 2) < 16) →
      processEnemy level dt s en =
        { enemies := s.enemies ++ [enemyAI level dt en],
          player := (hurtPlayer s.player s.lives).1,
          score := s.score, lives := (hurtPlayer s.player s.lives).2 }) := by
  constructor
  · intro hcond
    unfold processEnemy
    rw [if_neg (by simp [halive]), if_pos hoverlap, if_pos hcond]
  · intro hcond
    unfold processEnemy
    rw [if_neg (by simp [halive]), if_pos hoverlap, if_neg hcond]

/-- Witness for C4 (amended): the falling player of `phaseA` stomps
`enemyB`, and the level player of `phaseB` takes damage from `enemyAt`. -/
theorem stomp_or_damage_witness :
    processEnemy lvlBlock 0 phaseA enemyB =
      { enemies := phaseA.enemies ++ [{ enemyAI lvlBlock 0 enemyB with alive := false }],
        player := { phaseA.player with vy := -JUMP_SPEED * 0.5 },
        score := phaseA.score + 2, lives := phaseA.lives } ∧
    processEnemy lvlBlock 0 phaseB enemyAt =
      { enemies := phaseB.enemies ++ [enemyAI lvlBlock 0 enemyAt],
        player := (hurtPlayer phaseB.player phaseB.lives).1,
        score := phaseB.score, lives := (hurtPlayer phaseB.player phaseB.lives).2 } := by
  constructor
  · refine (stomp_or_damage lvlBlock 0 phaseA enemyB rfl ?_).1 ?_
    · norm_num +decide [rectsIntersect, enemyBox, playerBox, enemyAI, phaseA, enemyB,
        defaultPlayer, TILE, isSolidAtColRow, getTileAt, rowsOf, colsOf, lvlBlock]
    · norm_num +decide [enemyAI, phaseA, enemyB, defaultPlayer, TILE, isSolidAtColRow,
        getTileAt, rowsOf, colsOf, lvlBlock]
  · refine (stomp_or_damage lvlBlock 0 phaseB enemyAt rfl ?_).2 ?_
    · norm_num +decide [rectsIntersect, enemyBox, playerBox, enemyAI, phaseB, enemyAt,
        defaultPlayer, TILE, isSolidAtColRow, getTileAt, rowsOf, colsOf, lvlBlock]
    · norm_num +decide [enemyAI, phaseB, enemyAt, defaultPlayer, TILE, isSolidAtColRow,
        getTileAt, rowsOf, colsOf, lvlBlock]

/-- Counterexample to C4 as stated: in `phaseA` the falling player's
bottom edge is 17px away from (above) the centre of `enemyB` — not
within 16px — yet the code still fires the stomp outcome (enemy killed,
score +2, lives untouched) instead of the damage outcome the claim
requires. -/
theorem stomp_fires_outside_16px_band :
    rectsIntersect (enemyBox (enemyAI lvlBlock 0 enemyB)) (playerBox phaseA.player) = true ∧
    phaseA.player.vy > 0 ∧
    ¬ |(phaseA.player.y + phaseA.player.h) -
        ((enemyAI lvlBlock 0 enemyB).y + (enemyAI lvlBlock 0 enemyB).h / 2)| < 16 ∧
    (processEnemy lvlBlock 0 phaseA enemyB).lives = phaseA.lives ∧
    (processEnemy lvlBlock 0 phaseA enemyB).score = phaseA.score + 2 ∧
    (processEnemy lvlBlock 0 phaseA enemyB).enemies =
      [{ enemyAI lvlBlock 0 enemyB with alive := false }] := by
  have hAI : enemyAI lvlBlock 0 enemyB = { enemyB with dir := -1 } := by
    norm_num +decide [enemyAI, enemyB, TILE, isSolidAtColRow, getTileAt, rowsOf,
      colsOf, lvlBlock]
  have hov : rectsIntersect (enemyBox (enemyAI lvlBlock 0 enemyB))
      (playerBox phaseA.player) = true := by
    rw [hAI]
    norm_num +decide [rectsIntersect, enemyBox, playerBox, phaseA, enemyB, defaultPlayer, TILE]
  refine ⟨hov, ?_, ?_, ?_⟩
  · norm_num [phaseA, defaultPlayer, TILE]
  · rw [hAI]
    norm_num [phaseA, enemyB, defaultPlayer, TILE, abs_sub_lt_iff]
  · unfold processEnemy
    rw [if_neg (by norm_num [enemyB] : ¬ enemyB.alive = false), if_pos hov,
      if_pos (by rw [hAI]; norm_num [phaseA, enemyB, defaultPlayer, TILE])]
    norm_num [phaseA]

end Mario

namespace Mario

/-- Claim C1 (amended): every non-fatal life-loss site — enemy damage
with lives remaining and the void-fall check with lives remaining —
decrements lives by one and teleports the player to the hard-coded
default start `(TILE*2, 0)` (not the `P`-marker spawn) with both
velocity components zeroed; the score, the coin list and the other
enemies' state pass through untouched at both sites. -/
theorem nonfatal_respawn (level : LevelMap) (dt : ℚ) (s : EnemyPhase) (en : Enemy)
    (halive : en.alive = true)
    (hoverlap : rectsIntersect (enemyBox (enemyAI level dt en)) (playerBox s.player) = true)
    (hnostomp : ¬ (s.player.vy > 0 ∧
      (s.player.y + s.player.h) -
        ((enemyAI level dt en).y + (enemyAI level dt en).h / 2) < 16))
    (hlives : 0 < s.lives - 1) :
    (processEnemy level dt s en =
      { enemies := s.enemies ++ [enemyAI level dt en],
        player := { s.player with x := TILE * 2, y := 0, vx := 0, vy := 0 },
        score := s.score, lives := s.lives - 1 }) ∧
    (∀ g : GameState, worldHOf g.level + 500 < g.player.y → 0 < g.lives - 1 →
      voidFall g =
        { g with
            player := { g.player with x := TILE * 2, y := 0, vx := 0, vy := 0 },
            lives := g.lives - 1 }) := by
  constructor
  · unfold processEnemy
    rw [if_neg (by simp [halive]), if_pos hoverlap, if_neg hnostomp]
    unfold hurtPlayer
    rw [if_neg (by omega : ¬ s.lives - 1 ≤ 0)]
  · intro g hy hl
    unfold voidFall
    rw [if_pos hy]
    unfold hurtPlayer
    rw [if_neg (by omega : ¬ g.lives - 1 ≤ 0)]

/-- Witness for C1 (amended): the damage respawn of `phaseB` against
`enemyAt` and the void-fall respawn of `voidState`, both landing the
player at `(TILE*2, 0)`. -/
theorem nonfatal_respawn_witness :
    processEnemy lvlBlock 0 phaseB enemyAt =
      { enemies := phaseB.enemies ++ [enemyAI lvlBlock 0 enemyAt],
        player := { phaseB.player with x := TILE * 2, y := 0, vx := 0, vy := 0 },
        score := phaseB.score, lives := phaseB.lives - 1 } ∧
    voidFall voidState =
      { voidState with
          player := { voidState.player with x := TILE * 2, y := 0, vx := 0, vy := 0 },
          lives := voidState.lives - 1 } := by
  have h := nonfatal_respawn lvlBlock 0 phaseB enemyAt rfl
    (by norm_num +decide [rectsIntersect, enemyBox, playerBox, enemyAI, phaseB, enemyAt,
      defaultPlayer, TILE, isSolidAtColRow, getTileAt, rowsOf, colsOf, lvlBlock])
    (by norm_num +decide [enemyAI, phaseB, enemyAt, defaultPlayer, TILE, isSolidAtColRow,
      getTileAt, rowsOf, colsOf, lvlBlock])
    (by norm_num [phaseB])
  exact ⟨h.1, h.2 voidState
    (by norm_num [voidState, worldHOf, rowsOf, lvlP, defaultPlayer, TILE])
    (by norm_num [voidState])⟩

set_option maxHeartbeats 2000000 in
/-- Counterexample to C1 as stated: on the level `lvlP` the `P`-marker
spawn is `(6, -42)`, but the non-fatal void-fall respawn of `voidState`
(lives 3 to 2) puts the player at the hard-coded `(96, 0)` instead —
the respawn position is not derived from the `P` marker.  Velocities,
coins and score behave as claimed. -/
theorem respawn_not_at_P_spawn :
    (update noKeys 0 voidState).lives = 2 ∧
    (update noKeys 0 voidState).player.x = 96 ∧
    (update noKeys 0 voidState).player.y = 0 ∧
    (update noKeys 0 voidState).player.vx = 0 ∧
    (update noKeys 0 voidState).player.vy = 0 ∧
    (update noKeys 0 voidState).coins = voidState.coins ∧
    (update noKeys 0 voidState).score = voidState.score ∧
    (parseLevel lvlP).player.x = 6 ∧
    (parseLevel lvlP).player.y = -42 ∧
    (96 : ℚ) ≠ 6 := by
  have hparse : (parseLevel lvlP).player.x = 6 ∧ (parseLevel lvlP).player.y = -42 := by
    norm_num +decide [parseLevel, allCells, parseCell, cellChar, rowsOf, colsOf,
      defaultPlayer, TILE, lvlP, List.range_succ, List.flatMap]
  refine ⟨?_, ?_, ?_, ?_, ?_, ?_, ?_, hparse.1, hparse.2, by norm_num⟩ <;>
    norm_num +decide [update, noKeys, voidState, defaultPlayer, coinA, lvlP, MOVE_SPEED,
      GRAV, JUMP_SPEED, TILE, moveEntityX, moveEntityY, firstSolidAt, tileRange,
      firstSolid, scanCells, intRange, intRangeAux, isSolidAtColRow, getTileAt, rowsOf,
      colsOf, processCoins, processCoin, processEnemy, enemyAI, hurtPlayer, voidFall,
      worldHOf, rectsIntersect, playerBox, enemyBox, coinBox, List.find?, List.flatMap,
      List.foldl]

end Mario
